import Mathlib

/-!
Shallow embedding of `src/compdb.js` (the vscode-compdb extension) and proofs
about its reconciliation logic.

The embedding models the JavaScript runtime semantics the source relies on:

* `JSON.parse` first applies the ECMAScript ToString conversion to its
  argument.  A `Uint8Array` (the result type of `vscode.workspace.fs.readFile`)
  stringifies via `%TypedArray%.prototype.toString = Array.prototype.toString`,
  i.e. the decimal byte values joined with commas; the value `undefined`
  stringifies to the string `undefined`.
* `TextEncoder.encode` produces the UTF-8 bytes of its string argument.
* `!==` on two objects compares object identity, not contents.
* `path.posix.dirname` / `path.posix.join` follow Node's implementations;
  `join` with an `undefined` argument throws a `TypeError`.
* a promise rejection escaping an `async` function is modelled as an
  `Except.error`; `try`/`catch` blocks are modelled where the source has them.

JSON numbers are modelled in the integer fragment (optional minus sign and a
digit string without fraction or exponent part): number literals with a
fraction or exponent denote IEEE-754 doubles in `JSON.parse`, which are outside
the modelled fragment, and no statement in this development exercises them.
-/

namespace CompDB

/-- A parsed JSON document as produced by `JSON.parse`: null, booleans,
numbers (integer fragment), strings, arrays and plain objects (field lists in
insertion order, duplicate keys already collapsed to the last occurrence as
`JSON.parse` does). -/
inductive Json where
  | null
  | bool (b : Bool)
  | num (n : Int)
  | str (s : String)
  | arr (elems : List Json)
  | obj (fields : List (String × Json))
deriving Repr, BEq

/-- JSON whitespace characters (space, tab, line feed, carriage return). -/
def isJsonWs (c : Char) : Bool := c = ' ' || c = '\t' || c = '\n' || c = '\r'

/-- Drop leading JSON whitespace. -/
def skipWs : List Char → List Char
  | [] => []
  | c :: rest => if isJsonWs c then skipWs rest else c :: rest

/-- Value of one hexadecimal digit, as in a `\u` escape. -/
def hexVal (c : Char) : Option Nat :=
  let n := c.toNat
  if 48 ≤ n ∧ n ≤ 57 then some (n - 48)
  else if 97 ≤ n ∧ n ≤ 102 then some (n - 87)
  else if 65 ≤ n ∧ n ≤ 70 then some (n - 55)
  else none

/-- Longest prefix of decimal digits. -/
def takeDigits : List Char → List Char × List Char
  | [] => ([], [])
  | c :: rest =>
    if c.isDigit then
      let (ds, r) := takeDigits rest
      (c :: ds, r)
    else ([], c :: rest)

/-- Decimal digits to a natural number (most significant first). -/
def digitsToNat (acc : Nat) : List Char → Nat
  | [] => acc
  | c :: rest => digitsToNat (acc * 10 + (c.toNat - 48)) rest

/-- The JSON number grammar, restricted to the integer fragment: an optional
minus sign followed by `0` or a digit string without a leading zero.  A
fraction or exponent part makes the parse fail in this model (such literals
denote doubles, outside the modelled fragment). -/
def parseIntLit (cs : List Char) : Option (Int × List Char) :=
  let (neg, cs1) :=
    match cs with
    | '-' :: rest => (true, rest)
    | _ => (false, cs)
  match cs1 with
  | [] => none
  | c :: _ =>
    if c.isDigit then
      let (ds, rest) := takeDigits cs1
      if 1 < ds.length ∧ ds.headD '0' = '0' then none
      else
        match rest with
        | '.' :: _ => none
        | 'e' :: _ => none
        | 'E' :: _ => none
        | _ =>
          let n : Int := Int.ofNat (digitsToNat 0 ds)
          some (if neg then -n else n, rest)
    else none

/-- `JSON.parse` keeps the last of duplicate object keys, at the key's first
position: assigning to an existing property overwrites its value in place. -/
def insertField (fields : List (String × Json)) (k : String) (v : Json) :
    List (String × Json) :=
  if fields.any (fun kv => kv.1 == k) then
    fields.map (fun kv => if kv.1 == k then (k, v) else kv)
  else fields ++ [(k, v)]

mutual

/-- Recursive-descent parser for one JSON value, fuelled (the fuel bounds the
recursion depth; `jsonParse` supplies more fuel than any input can consume). -/
def parseVal : Nat → List Char → Option (Json × List Char)
  | 0, _ => none
  | fuel + 1, cs =>
    match skipWs cs with
    | 'n' :: 'u' :: 'l' :: 'l' :: rest => some (.null, rest)
    | 't' :: 'r' :: 'u' :: 'e' :: rest => some (.bool true, rest)
    | 'f' :: 'a' :: 'l' :: 's' :: 'e' :: rest => some (.bool false, rest)
    | '"' :: rest =>
      (match parseStrChars fuel [] rest with
       | some (s, r) => some (.str s, r)
       | none => none)
    | '[' :: rest =>
      (match skipWs rest with
       | ']' :: r => some (.arr [], r)
       | _ =>
         match parseElems fuel rest [] with
         | some (xs, r) => some (.arr xs, r)
         | none => none)
    | '{' :: rest =>
      (match skipWs rest with
       | '}' :: r => some (.obj [], r)
       | _ =>
         match parseMembers fuel rest [] with
         | some (fs, r) => some (.obj fs, r)
         | none => none)
    | other =>
      match parseIntLit other with
      | some (n, r) => some (.num n, r)
      | none => none

/-- Comma-separated array elements after `[`, up to the closing `]`. -/
def parseElems : Nat → List Char → List Json → Option (List Json × List Char)
  | 0, _, _ => none
  | fuel + 1, cs, acc =>
    match parseVal fuel cs with
    | none => none
    | some (v, r) =>
      match skipWs r with
      | ',' :: r2 => parseElems fuel r2 (acc ++ [v])
      | ']' :: r2 => some (acc ++ [v], r2)
      | _ => none

/-- Comma-separated `"key": value` members after `{`, up to the closing `}`. -/
def parseMembers : Nat → List Char → List (String × Json) →
    Option (List (String × Json) × List Char)
  | 0, _, _ => none
  | fuel + 1, cs, acc =>
    match skipWs cs with
    | '"' :: rest =>
      (match parseStrChars fuel [] rest with
       | none => none
       | some (k, r) =>
         match skipWs r with
         | ':' :: r2 =>
           (match parseVal fuel r2 with
            | none => none
            | some (v, r3) =>
              let acc2 := insertField acc k v
              match skipWs r3 with
              | ',' :: r4 => parseMembers fuel r4 acc2
              | '}' :: r4 => some (acc2, r4)
              | _ => none)
         | _ => none)
    | _ => none

/-- Body of a JSON string literal after the opening quote: plain characters
(raw control characters are rejected, as in `JSON.parse`), the short escapes,
and `\u` escapes with surrogate-pair combination.  A lone surrogate would
yield a non-scalar UTF-16 string in JavaScript, which is not representable
here and outside the modelled fragment. -/
def parseStrChars : Nat → List Char → List Char → Option (String × List Char)
  | 0, _, _ => none
  | fuel + 1, acc, cs =>
    match cs with
    | [] => none
    | '"' :: rest => some (String.mk acc, rest)
    | '\\' :: esc =>
      (match esc with
       | '"' :: r => parseStrChars fuel (acc ++ ['"']) r
       | '\\' :: r => parseStrChars fuel (acc ++ ['\\']) r
       | '/' :: r => parseStrChars fuel (acc ++ ['/']) r
       | 'b' :: r => parseStrChars fuel (acc ++ [Char.ofNat 8]) r
       | 'f' :: r => parseStrChars fuel (acc ++ [Char.ofNat 12]) r
       | 'n' :: r => parseStrChars fuel (acc ++ ['\n']) r
       | 'r' :: r => parseStrChars fuel (acc ++ [Char.ofNat 13]) r
       | 't' :: r => parseStrChars fuel (acc ++ ['\t']) r
       | 'u' :: h1 :: h2 :: h3 :: h4 :: r =>
         (match hexVal h1, hexVal h2, hexVal h3, hexVal h4 with
          | some a, some b, some c, some d =>
            let n := ((a * 16 + b) * 16 + c) * 16 + d
            if 0xD800 ≤ n ∧ n ≤ 0xDBFF then
              match r with
              | '\\' :: 'u' :: g1 :: g2 :: g3 :: g4 :: r2 =>
                (match hexVal g1, hexVal g2, hexVal g3, hexVal g4 with
                 | some a2, some b2, some c2, some d2 =>
                   let m := ((a2 * 16 + b2) * 16 + c2) * 16 + d2
                   if 0xDC00 ≤ m ∧ m ≤ 0xDFFF then
                     let cp := 0x10000 + (n - 0xD800) * 0x400 + (m - 0xDC00)
                     parseStrChars fuel (acc ++ [Char.ofNat cp]) r2
                   else none
                 | _, _, _, _ => none)
              | _ => none
            else if 0xDC00 ≤ n ∧ n ≤ 0xDFFF then none
            else parseStrChars fuel (acc ++ [Char.ofNat n]) r
          | _, _, _, _ => none)
       | _ => none)
    | c :: rest =>
      if c.toNat < 32 then none else parseStrChars fuel (acc ++ [c]) rest

end

/-- `JSON.parse` on a string: parse one value and require only whitespace to
remain.  `none` models the thrown `SyntaxError`. -/
def jsonParse (s : String) : Option Json :=
  match parseVal (4 * (s.length + 1)) s.data with
  | some (v, rest) => if (skipWs rest).isEmpty then some v else none
  | none => none

mutual

/-- lodash `_.isEqual` on parsed JSON values: structural equality, with
object fields compared as key-value sets (order-insensitive), arrays
element-wise in order. -/
def jsonEq : Json → Json → Bool
  | .null, b => match b with | .null => true | _ => false
  | .bool x, b => match b with | .bool y => x == y | _ => false
  | .num x, b => match b with | .num y => x == y | _ => false
  | .str x, b => match b with | .str y => x == y | _ => false
  | .arr xs, b => match b with | .arr ys => jsonEqArr xs ys | _ => false
  | .obj xs, b =>
    match b with
    | .obj ys => xs.length == ys.length && jsonEqObj xs ys
    | _ => false

/-- Pairwise equality of array elements. -/
def jsonEqArr : List Json → List Json → Bool
  | [], ys => ys.isEmpty
  | x :: xs, ys =>
    match ys with
    | [] => false
    | y :: ys2 => jsonEq x y && jsonEqArr xs ys2

/-- Every field of the first object is present in the second with an equal
value (with equal field counts this is key-set equality). -/
def jsonEqObj : List (String × Json) → List (String × Json) → Bool
  | [], _ => true
  | (k, v) :: rest, ys =>
    match ys.find? (fun kv => kv.1 == k) with
    | some kv => jsonEq v kv.2 && jsonEqObj rest ys
    | none => false

end

/-- The ECMAScript ToString conversion of a `Uint8Array`
(`Array.prototype.toString`): the decimal byte values joined with commas.
This is what `JSON.parse` receives when handed the result of
`vscode.workspace.fs.readFile` directly. -/
def bytesToString (bs : List Nat) : String :=
  String.intercalate "," (bs.map (fun b => toString b))

/-- ECMAScript ToString of a value that is either a string or `undefined`,
as applied by `JSON.parse` to its argument. -/
def jsToString : Option String → String
  | some s => s
  | none => "undefined"

/-- UTF-8 bytes of one character. -/
def utf8Bytes (c : Char) : List Nat :=
  let n := c.toNat
  if n < 0x80 then [n]
  else if n < 0x800 then
    [0xC0 ||| (n >>> 6), 0x80 ||| (n &&& 0x3F)]
  else if n < 0x10000 then
    [0xE0 ||| (n >>> 12), 0x80 ||| ((n >>> 6) &&& 0x3F), 0x80 ||| (n &&& 0x3F)]
  else
    [0xF0 ||| (n >>> 18), 0x80 ||| ((n >>> 12) &&& 0x3F),
     0x80 ||| ((n >>> 6) &&& 0x3F), 0x80 ||| (n &&& 0x3F)]

/-- `new TextEncoder().encode(s)`: the UTF-8 bytes of `s`. -/
def utf8Encode (s : String) : List Nat := (s.data.map utf8Bytes).flatten

/-- Scan for the index of the `/` that ends the directory part: walk from
index `i` down to 1, skipping trailing slashes (`matched` starts `true`),
and stop at the first `/` after a non-slash character.  Direct port of the
loop in Node's `path.posix.dirname`. -/
def dirnameEndAux (cs : List Char) : Nat → Bool → Option Nat
  | 0, _ => none
  | i + 1, matched =>
    if cs.getD (i + 1) ' ' = '/' then
      if matched then dirnameEndAux cs i matched else some (i + 1)
    else dirnameEndAux cs i false

/-- Node's `path.posix.dirname`. -/
def posixDirname (p : String) : String :=
  let cs := p.data
  if cs.isEmpty then "."
  else
    let hasRoot := cs.headD ' ' = '/'
    match dirnameEndAux cs (cs.length - 1) true with
    | none => if hasRoot then "/" else "."
    | some e => if hasRoot ∧ e = 1 then "//" else String.mk (cs.take e)

/-- Resolve `.`, `..` and empty segments, as Node's posix `normalizeString`
does (`allowAboveRoot` keeps leading `..` segments for relative paths). -/
def resolveSegs (allowAboveRoot : Bool) (acc : List String) :
    List String → List String
  | [] => acc.reverse
  | seg :: rest =>
    if seg = "" ∨ seg = "." then resolveSegs allowAboveRoot acc rest
    else if seg = ".." then
      match acc with
      | top :: acc2 =>
        if top = ".." then resolveSegs allowAboveRoot (".." :: acc) rest
        else resolveSegs allowAboveRoot acc2 rest
      | [] =>
        if allowAboveRoot then resolveSegs allowAboveRoot [".."] rest
        else resolveSegs allowAboveRoot [] rest
    else resolveSegs allowAboveRoot (seg :: acc) rest

/-- Split a character list into the `/`-separated segments. -/
def splitSlashAux (cur : List Char) : List Char → List String
  | [] => [String.mk cur.reverse]
  | c :: rest =>
    if c = '/' then String.mk cur.reverse :: splitSlashAux [] rest
    else splitSlashAux (c :: cur) rest

/-- Node's `path.posix.normalize`. -/
def posixNormalize (p : String) : String :=
  let cs := p.data
  if cs.isEmpty then "."
  else
    let isAbs := cs.headD ' ' = '/'
    let hasTrailing := cs.getLastD ' ' = '/'
    let core := String.intercalate "/" (resolveSegs (!isAbs) [] (splitSlashAux [] cs))
    if core = "" then
      if isAbs then "/" else if hasTrailing then "./" else "."
    else
      (if isAbs then "/" else "") ++ core ++ (if hasTrailing then "/" else "")

/-- Node's `path.posix.join` of two path segments: empty segments are
skipped, the rest are joined with `/` and normalized. -/
def posixJoin (a b : String) : String :=
  let parts := [a, b].filter (fun s => 0 < s.length)
  if parts.isEmpty then "." else posixNormalize (String.intercalate "/" parts)

/-- Model of a `vscode.Uri` object.  `id` models JavaScript object identity:
every allocation (in particular every watcher event payload) carries a fresh
id, and the strict operators `===`/`!==` on objects compare ids, not
contents. -/
structure UriObj where
  id : Nat
  scheme : String
  path : String
deriving DecidableEq, Repr

/-- `uri.fsPath` of a file-scheme uri without authority on a posix host: the
uri's path. -/
def UriObj.fsPath (u : UriObj) : String := u.path

/-- `dirnameUri` from the source: `uri.with({ path: posixPath.dirname(uri.path) })`.
The result is a fresh object, but only its `fsPath` is ever consumed, so its
identity is irrelevant and the id is kept. -/
def dirnameUri (u : UriObj) : UriObj := { u with path := posixDirname u.path }

/-- Observable effects of a reconciliation, in program order:
invocation of the external `compdb` tool on a build directory, an attempted
read of the published artifact, an attempted stat of it, a write of the given
bytes to it, and the `clangd.restart` command. -/
inductive Eff where
  | normInvoke (buildDir : String)
  | artifactRead
  | artifactStat
  | artifactWrite (bytes : List Nat)
  | restartSignal
deriving DecidableEq, Repr

/-- State of `<workspaceFolder>/compile_commands.json`, the only file the
reconciliation touches: `artifact` is its byte content (`none` when absent).
`readFails` / `statFails` inject spurious I/O failures — `readFile` or
`stat` rejecting even though the file exists — to express the error-handling
claims; with both `false` the operations fail exactly when the file is
absent. -/
structure FS where
  artifact : Option (List Nat)
  readFails : Bool
  statFails : Bool
deriving DecidableEq, Repr

/-- A JavaScript exception escaping an async function. -/
inductive JsErr where
  | syntaxError
  | typeError
deriving DecidableEq, Repr

/-- `CompDBRunner.#runCompDB(sourceUri)`: for a file-scheme uri, invoke the
external `compdb` tool (modelled by the oracle `norm`, which returns the
tool's stdout lines, or `none` when the tool is missing or exits non-zero) on
`dirname(sourceUri).fsPath` and join the output lines with newlines.  Tool
failure is swallowed by the `catch`, making the function return the JS value
`undefined` (modelled `none`).  A non-file scheme hits the unimplemented TODO
branch: no tool invocation, result `undefined`. -/
def runCompDBInner (norm : String → Option (List String)) (sourceUri : UriObj) :
    Option String × List Eff :=
  if sourceUri.scheme = "file" then
    let dir := (dirnameUri sourceUri).fsPath
    match norm dir with
    | some lines => (some (String.intercalate "\n" lines), [.normInvoke dir])
    | none => (none, [.normInvoke dir])
  else (none, [])

/-- The `try { readFile; JSON.parse; isEqual }` block of `#updateCompDB`,
given the outcome of the read (`none` when `readFile` rejected): `true` when
the block returned early (content judged equal).  NOTE the byte/string slip
faithfully modelled here: `JSON.parse(currentContentBytes)` receives the
`Uint8Array` itself, so it parses `bytesToString bytes`, the comma-joined
decimal byte values — not the decoded file text.  A parse failure is caught
by the same `catch` as a read failure and falls through. -/
def compareSaysEqual (readRes : Option (List Nat)) (newJSON : Json) : Bool :=
  match readRes with
  | none => false
  | some bytes =>
    match jsonParse (bytesToString bytes) with
    | none => false
    | some cur => jsonEq cur newJSON

/-- `CompDBRunner.#updateCompDB(sourceUri)`, the reconciliation:
1. run the normalizer (`runCompDBInner`);
2. `JSON.parse` the new text — with ToString applied first, so a normalizer
   failure (`undefined`) parses the string `undefined` and throws a
   `SyntaxError` that propagates (`Except.error`);
3. read the published artifact and compare (`compareSaysEqual`; read and
   parse failures are caught and fall through); on equality return — no
   write, no restart;
4. probe existence with `stat` (failure caught, treated as non-existence);
5. write the UTF-8 bytes of the new text verbatim;
6. if the stat probe said the artifact did not exist, issue `clangd.restart`. -/
def updateCompDB (norm : String → Option (List String)) (sourceUri : UriObj)
    (fs : FS) : Except JsErr FS × List Eff :=
  let (textOpt, tr0) := runCompDBInner norm sourceUri
  let text := jsToString textOpt
  match jsonParse text with
  | none => (.error .syntaxError, tr0)
  | some newJSON =>
    let readRes : Option (List Nat) := if fs.readFails then none else fs.artifact
    if compareSaysEqual readRes newJSON then
      (.ok fs, tr0 ++ [.artifactRead])
    else
      let targetAlreadyExists : Bool :=
        if fs.statFails then false else fs.artifact.isSome
      let outBytes := utf8Encode text
      (.ok { fs with artifact := some outBytes },
       tr0 ++ [.artifactRead, .artifactStat, .artifactWrite outBytes]
           ++ if targetAlreadyExists then [] else [.restartSignal])

/-- Per-folder runner state: the candidate-source list (`vscode.Uri` objects
pushed by create events) and the folder's artifact file. -/
structure RunnerState where
  candidates : List UriObj
  fs : FS
deriving DecidableEq, Repr

/-- The strict inequality `dirnameUri(uri).fsPath !== cmakeBuildDirectory`,
where the right-hand side is the result of the `cmake.buildDirectory`
command — a string, or `undefined` when unavailable (values of different
types are always `!==`). -/
def neqBuildDir (s : String) : Option String → Bool
  | none => true
  | some d => s != d

/-- `CompDBRunner.#handleCompileCommandsSourceCreated(uri)`: push the uri
onto the candidate list, query the active build directory fresh, and return
unless the uri's parent directory is the active build directory; otherwise
reconcile.  Result: the exception escaping the handler (if any), the new
state, and the effects. -/
def handleCreated (norm : String → Option (List String))
    (activeBuildDir : Option String) (uri : UriObj) (st : RunnerState) :
    Option JsErr × RunnerState × List Eff :=
  let st1 : RunnerState := { st with candidates := st.candidates ++ [uri] }
  if neqBuildDir (dirnameUri uri).fsPath activeBuildDir then (none, st1, [])
  else
    match updateCompDB norm uri st1.fs with
    | (.ok fs2, tr) => (none, { st1 with fs := fs2 }, tr)
    | (.error e, tr) => (some e, st1, tr)

/-- `CompDBRunner.#handleCompileCommandsSourceChanged(uri)`: the same
active-directory check, without the candidate push. -/
def handleChanged (norm : String → Option (List String))
    (activeBuildDir : Option String) (uri : UriObj) (st : RunnerState) :
    Option JsErr × RunnerState × List Eff :=
  if neqBuildDir (dirnameUri uri).fsPath activeBuildDir then (none, st, [])
  else
    match updateCompDB norm uri st.fs with
    | (.ok fs2, tr) => (none, { st with fs := fs2 }, tr)
    | (.error e, tr) => (some e, st, tr)

/-- `CompDBRunner.#handleCompileCommandsSourceDeleted(uri)`:
`candidates.filter(currentUri => currentUri !== uri)` — strict inequality on
objects compares identity, so only a candidate that is the very same object
as the event payload is dropped. -/
def handleDeleted (uri : UriObj) (st : RunnerState) : RunnerState × List Eff :=
  ({ st with candidates := st.candidates.filter (fun c => c.id != uri.id) }, [])

/-- `CompDBRunner.runCompDB(buildDir)`: reconcile on
`Uri.file(posixPath.join(buildDir, "compile_commands.json"))`.  Called with
no argument (`buildDir` = `undefined`, modelled `none`), `path.posix.join`
throws a `TypeError` before any reconciliation work. -/
def runnerRunCompDB (norm : String → Option (List String))
    (buildDir : Option String) (fs : FS) : Except JsErr FS × List Eff :=
  match buildDir with
  | none => (.error .typeError, [])
  | some d => updateCompDB norm ⟨0, "file", posixJoin d "compile_commands.json"⟩ fs

/-- Model of a `vscode.WorkspaceFolder` object; `id` models object identity,
compared by `===`/`!==`. -/
structure WSFolder where
  id : Nat
  name : String
deriving DecidableEq, Repr

/-- One entry of `WorkspaceManager.#compDBRunners`: a `CompDBRunner` with its
workspace folder. -/
structure WMRunner where
  folder : WSFolder
deriving DecidableEq, Repr

/-- `WorkspaceManager.runCompDB(workspaceFolder, buildDirectory)`: filter to
the runners whose folder object is not (`!==`, object identity) the given
folder, then `.forEach(worker => worker.runCompDB())`.  Each surviving
runner's `runCompDB` is invoked WITH NO ARGUMENT — the `buildDirectory`
parameter is used only in a `console.log` and never forwarded — and
`Promise.all` is applied to `forEach`'s return value `undefined`, so the
awaited expression rejects with a `TypeError`.  Returns the list of
`(folder, argument)` invocations made and the outcome of the awaited
expression. -/
def wmRunCompDB (runners : List WMRunner) (excludedFolder : WSFolder)
    (buildDirectory : String) : List (WSFolder × Option String) × Except JsErr Unit :=
  let forwarded := runners.filter (fun r => r.folder.id != excludedFolder.id)
  (forwarded.map (fun r => (r.folder, (none : Option String))), .error .typeError)

/-- Number of artifact writes in a trace. -/
def countWrites (tr : List Eff) : Nat :=
  (tr.filterMap (fun e => match e with | .artifactWrite b => some b | _ => none)).length

/-- Number of restart signals in a trace. -/
def countRestarts (tr : List Eff) : Nat :=
  (tr.filterMap (fun e => match e with | .restartSignal => some () | _ => none)).length

/-- Number of normalizer invocations in a trace. -/
def countNorms (tr : List Eff) : Nat :=
  (tr.filterMap (fun e => match e with | .normInvoke d => some d | _ => none)).length

/-- Number of attempted artifact reads in a trace. -/
def countReads (tr : List Eff) : Nat :=
  (tr.filterMap (fun e => match e with | .artifactRead => some () | _ => none)).length

/-! ### Helper lemmas about the reconciliation -/

theorem runCompDBInner_some (norm : String → Option (List String)) (uri : UriObj)
    (lines : List String) (hscheme : uri.scheme = "file")
    (hnorm : norm (dirnameUri uri).fsPath = some lines) :
    runCompDBInner norm uri =
      (some (String.intercalate "\n" lines), [.normInvoke (dirnameUri uri).fsPath]) := by
  simp [runCompDBInner, hscheme, hnorm]

theorem updateCompDB_skip (norm : String → Option (List String)) (uri : UriObj)
    (fs : FS) (lines : List String) (j : Json) (hscheme : uri.scheme = "file")
    (hnorm : norm (dirnameUri uri).fsPath = some lines)
    (hparse : jsonParse (String.intercalate "\n" lines) = some j)
    (hcmp : compareSaysEqual (if fs.readFails then none else fs.artifact) j = true) :
    updateCompDB norm uri fs =
      (.ok fs, [.normInvoke (dirnameUri uri).fsPath, .artifactRead]) := by
  simp [updateCompDB, runCompDBInner_some norm uri lines hscheme hnorm, jsToString,
    hparse, hcmp]

theorem updateCompDB_write (norm : String → Option (List String)) (uri : UriObj)
    (fs : FS) (lines : List String) (j : Json) (hscheme : uri.scheme = "file")
    (hnorm : norm (dirnameUri uri).fsPath = some lines)
    (hparse : jsonParse (String.intercalate "\n" lines) = some j)
    (hcmp : compareSaysEqual (if fs.readFails then none else fs.artifact) j = false) :
    updateCompDB norm uri fs =
      (.ok { fs with artifact := some (utf8Encode (String.intercalate "\n" lines)) },
       [.normInvoke (dirnameUri uri).fsPath, .artifactRead, .artifactStat,
        .artifactWrite (utf8Encode (String.intercalate "\n" lines))]
       ++ if (if fs.statFails then false else fs.artifact.isSome) then []
          else [.restartSignal]) := by
  simp [updateCompDB, runCompDBInner_some norm uri lines hscheme hnorm, jsToString,
    hparse, hcmp]

theorem updateCompDB_normFail (norm : String → Option (List String)) (uri : UriObj)
    (fs : FS) (hscheme : uri.scheme = "file")
    (hfail : norm (dirnameUri uri).fsPath = none) :
    updateCompDB norm uri fs =
      (.error .syntaxError, [.normInvoke (dirnameUri uri).fsPath]) := by
  have hr : runCompDBInner norm uri = (none, [.normInvoke (dirnameUri uri).fsPath]) := by
    simp [runCompDBInner, hscheme, hfail]
  have hu : jsonParse "undefined" = none := rfl
  simp [updateCompDB, hr, jsToString, hu]

/-! ### The claims -/

/-- C1: for every reconciliation run in which normalization succeeds (the
tool returns output lines whose newline-joined text parses as JSON) and no
published artifact exists at the workspace-folder root before the write, the
reconciliation writes the normalized text (as UTF-8 bytes) to the artifact
path and issues exactly one dependent-service (clangd) restart signal. -/
theorem c1_first_write_issues_one_restart (norm : String → Option (List String))
    (uri : UriObj) (fs : FS) (lines : List String) (j : Json)
    (hscheme : uri.scheme = "file")
    (hnorm : norm (dirnameUri uri).fsPath = some lines)
    (hparse : jsonParse (String.intercalate "\n" lines) = some j)
    (hempty : fs.artifact = none) :
    updateCompDB norm uri fs =
      (.ok { fs with artifact := some (utf8Encode (String.intercalate "\n" lines)) },
       [.normInvoke (dirnameUri uri).fsPath, .artifactRead, .artifactStat,
        .artifactWrite (utf8Encode (String.intercalate "\n" lines)),
        .restartSignal]) := by
  have hcmp : compareSaysEqual (if fs.readFails then none else fs.artifact) j = false := by
    simp [hempty, compareSaysEqual]
  have h := updateCompDB_write norm uri fs lines j hscheme hnorm hparse hcmp
  rw [h]
  simp [hempty]

/-- Witness for C1 at a concrete input: active build directory
/proj/build, normalizer output the single line [], no prior artifact. -/
theorem c1_first_write_issues_one_restart_witness :
    updateCompDB (fun _ => some ["[]"])
        ⟨1, "file", "/proj/build/compile_commands.json"⟩ ⟨none, false, false⟩ =
      (.ok ⟨some (utf8Encode "[]"), false, false⟩,
       [.normInvoke "/proj/build", .artifactRead, .artifactStat,
        .artifactWrite (utf8Encode "[]"), .restartSignal]) :=
  c1_first_write_issues_one_restart (fun _ => some ["[]"])
    ⟨1, "file", "/proj/build/compile_commands.json"⟩ ⟨none, false, false⟩
    ["[]"] (Json.arr []) rfl rfl rfl rfl

/-- C2 (code bug), evaluated at the failing input: the artifact exists with
content "5" (byte 53), whose parsed value 5 is structurally different from
the new content 53 produced by the normalizer, yet the reconciliation does
NOT overwrite it: JSON.parse receives the Uint8Array itself, whose ToString
coercion is the string "53", which parses to 53 and is judged equal to the
new content, so the run skips with no write (the claim requires an
overwrite). -/
theorem c2_existing_artifact_skipped_despite_different_content :
    utf8Encode "5" = [53] ∧
    jsonParse "5" = some (Json.num 5) ∧
    jsonParse "53" = some (Json.num 53) ∧
    jsonEq (Json.num 5) (Json.num 53) = false ∧
    updateCompDB (fun _ => some ["53"])
        ⟨1, "file", "/proj/build/compile_commands.json"⟩ ⟨some [53], false, false⟩ =
      (.ok ⟨some [53], false, false⟩,
       [.normInvoke "/proj/build", .artifactRead]) :=
  ⟨rfl, rfl, rfl, rfl, rfl⟩

/-- C3 (code bug), evaluated at the failing input: with runners for folders
A and B, runSynchronization(A, "/proj/build") forwards to B only (the
exclusion filter matches the claim) but invokes B's runCompDB WITH NO
ARGUMENT — the recorded invocation carries no build directory — and the
awaited Promise.all of forEach's undefined return rejects with a TypeError;
a runner invoked with an undefined build directory itself fails in
path.posix.join before any reconciliation.  The claim requires the
forwarded reconciliations to use the given build directory. -/
theorem c3_build_directory_not_forwarded :
    wmRunCompDB [⟨⟨1, "A"⟩⟩, ⟨⟨2, "B"⟩⟩] ⟨1, "A"⟩ "/proj/build" =
      ([(⟨2, "B"⟩, none)], .error .typeError) ∧
    runnerRunCompDB (fun _ => some ["[]"]) none ⟨none, false, false⟩ =
      (.error .typeError, []) :=
  ⟨rfl, rfl⟩

/-- C4 (code bug), evaluated at the failing input: two successive
reconciliations with the normalizer returning "[]" both times and no initial
artifact.  The first run writes the bytes 91, 93 and restarts.  The second
run reads them back, but JSON.parse receives the Uint8Array itself, whose
ToString coercion "91,93" is not valid JSON; the parse failure is caught and
the run falls through to a SECOND write (no restart).  The claim requires
exactly one write, the second run being a content-equal skip. -/
theorem c4_second_run_writes_again :
    updateCompDB (fun _ => some ["[]"])
        ⟨1, "file", "/proj/build/compile_commands.json"⟩ ⟨none, false, false⟩ =
      (.ok ⟨some [91, 93], false, false⟩,
       [.normInvoke "/proj/build", .artifactRead, .artifactStat,
        .artifactWrite [91, 93], .restartSignal]) ∧
    updateCompDB (fun _ => some ["[]"])
        ⟨1, "file", "/proj/build/compile_commands.json"⟩ ⟨some [91, 93], false, false⟩ =
      (.ok ⟨some [91, 93], false, false⟩,
       [.normInvoke "/proj/build", .artifactRead, .artifactStat,
        .artifactWrite [91, 93]]) ∧
    bytesToString [91, 93] = "91,93" ∧
    jsonParse "91,93" = none :=
  ⟨rfl, rfl, rfl, rfl⟩

/-- C5: a watcher create or change event whose path's parent directory is
not the currently active build directory (queried fresh, possibly
undefined) performs no normalization invocation and no artifact write: the
create handler still records the path as a candidate, the change handler
returns the state untouched, and both produce an empty effect trace and no
exception. -/
theorem c5_nonmatching_event_is_inert (norm : String → Option (List String))
    (activeBuildDir : Option String) (uri : UriObj) (st : RunnerState)
    (hmiss : neqBuildDir (dirnameUri uri).fsPath activeBuildDir = true) :
    handleCreated norm activeBuildDir uri st =
      (none, { st with candidates := st.candidates ++ [uri] }, []) ∧
    handleChanged norm activeBuildDir uri st = (none, st, []) := by
  constructor
  · simp [handleCreated, hmiss]
  · simp [handleChanged, hmiss]

/-- Witness for C5 at a concrete input: event for
/proj/other_build/compile_commands.json while the active build directory is
/proj/build. -/
theorem c5_nonmatching_event_is_inert_witness :
    handleCreated (fun _ => some ["[]"]) (some "/proj/build")
        ⟨3, "file", "/proj/other_build/compile_commands.json"⟩ ⟨[], ⟨none, false, false⟩⟩ =
      (none, ⟨[⟨3, "file", "/proj/other_build/compile_commands.json"⟩],
              ⟨none, false, false⟩⟩, []) ∧
    handleChanged (fun _ => some ["[]"]) (some "/proj/build")
        ⟨3, "file", "/proj/other_build/compile_commands.json"⟩ ⟨[], ⟨none, false, false⟩⟩ =
      (none, ⟨[], ⟨none, false, false⟩⟩, []) :=
  c5_nonmatching_event_is_inert (fun _ => some ["[]"]) (some "/proj/build")
    ⟨3, "file", "/proj/other_build/compile_commands.json"⟩ ⟨[], ⟨none, false, false⟩⟩ rfl

/-- C6 counterexample: with the normalizer failing (tool missing or
non-zero exit) the reconciliation does NOT abort silently: the tool error
itself is swallowed inside the runner, but the reconciliation then throws —
JSON.parse of the undefined result raises a SyntaxError that propagates out
of the reconciliation task — contradicting the claim's "aborts with no
visible error".  (The trace confirms the absence of read/write/restart.) -/
theorem c6_counterexample_error_propagates :
    updateCompDB (fun _ => none)
        ⟨1, "file", "/proj/build/compile_commands.json"⟩ ⟨none, false, false⟩ =
      (.error .syntaxError, [.normInvoke "/proj/build"]) :=
  rfl

/-- C6 amended: when the external normalization tool invocation fails, the
tool failure itself is swallowed, and the reconciliation then aborts by
throwing a SyntaxError (from JSON.parse of the undefined result) that
propagates out of the reconciliation task; no artifact read, no write and
no restart occurs, and the filesystem state is unchanged. -/
theorem c6_amended_normalizer_failure_inert_but_raises
    (norm : String → Option (List String)) (uri : UriObj) (fs : FS)
    (hscheme : uri.scheme = "file")
    (hfail : norm (dirnameUri uri).fsPath = none) :
    updateCompDB norm uri fs =
      (.error .syntaxError, [.normInvoke (dirnameUri uri).fsPath]) :=
  updateCompDB_normFail norm uri fs hscheme hfail

/-- Witness for the amended C6 at a concrete input. -/
theorem c6_amended_normalizer_failure_inert_but_raises_witness :
    updateCompDB (fun _ => none)
        ⟨2, "file", "/proj/build/compile_commands.json"⟩ ⟨some [91, 93], false, false⟩ =
      (.error .syntaxError, [.normInvoke "/proj/build"]) :=
  c6_amended_normalizer_failure_inert_but_raises (fun _ => none)
    ⟨2, "file", "/proj/build/compile_commands.json"⟩ ⟨some [91, 93], false, false⟩ rfl rfl

/-- C7 (code bug), evaluated at the failing input: a create event carrying
Uri object #1 for /proj/build/compile_commands.json (inactive directory, so
no reconciliation) records the path as a candidate; a later delete event for
the SAME path necessarily carries a fresh Uri object (#2), and the delete
handler's filter compares object identity (!==), so the candidate is NOT
removed — its path is still a member afterwards, contradicting the claim's
unconditional removal.  (The handler does trigger no reconciliation: the
effect trace is empty — that part of the claim holds.) -/
theorem c7_delete_event_leaves_candidate :
    handleCreated (fun _ => some ["[]"]) (some "/elsewhere")
        ⟨1, "file", "/proj/build/compile_commands.json"⟩ ⟨[], ⟨none, false, false⟩⟩ =
      (none, ⟨[⟨1, "file", "/proj/build/compile_commands.json"⟩],
              ⟨none, false, false⟩⟩, []) ∧
    handleDeleted ⟨2, "file", "/proj/build/compile_commands.json"⟩
        ⟨[⟨1, "file", "/proj/build/compile_commands.json"⟩], ⟨none, false, false⟩⟩ =
      (⟨[⟨1, "file", "/proj/build/compile_commands.json"⟩], ⟨none, false, false⟩⟩, []) ∧
    (⟨1, "file", "/proj/build/compile_commands.json"⟩ : UriObj).path =
      (⟨2, "file", "/proj/build/compile_commands.json"⟩ : UriObj).path :=
  ⟨rfl, rfl, rfl⟩

/-- C8: in every reconciliation whose normalization and parse succeed,
failures of the artifact read or stat are conflated with absence and never
abort: the run always completes without an exception; a read failure means
no content skip can happen, so the artifact is written; and when the stat
probe fails, a restart accompanies the write exactly as for a missing
artifact (restart count equals write count: a skip produces neither). -/
theorem c8_read_stat_failure_treated_as_absent
    (norm : String → Option (List String)) (uri : UriObj) (fs : FS)
    (lines : List String) (j : Json) (hscheme : uri.scheme = "file")
    (hnorm : norm (dirnameUri uri).fsPath = some lines)
    (hparse : jsonParse (String.intercalate "\n" lines) = some j) :
    (updateCompDB norm uri fs).1.isOk = true ∧
    (fs.readFails = true →
      (updateCompDB norm uri fs).1 =
        .ok { fs with artifact := some (utf8Encode (String.intercalate "\n" lines)) } ∧
      countWrites (updateCompDB norm uri fs).2 = 1) ∧
    (fs.statFails = true →
      countRestarts (updateCompDB norm uri fs).2 =
        countWrites (updateCompDB norm uri fs).2) := by
  refine ⟨?_, ?_, ?_⟩
  · cases hcmp : compareSaysEqual (if fs.readFails then none else fs.artifact) j
    · rw [updateCompDB_write norm uri fs lines j hscheme hnorm hparse hcmp]
      rfl
    · rw [updateCompDB_skip norm uri fs lines j hscheme hnorm hparse hcmp]
      rfl
  · intro hrf
    have hcmp : compareSaysEqual (if fs.readFails then none else fs.artifact) j = false := by
      simp [hrf, compareSaysEqual]
    rw [updateCompDB_write norm uri fs lines j hscheme hnorm hparse hcmp]
    constructor
    · rfl
    · cases hex : (if fs.statFails then false else fs.artifact.isSome) <;>
        simp [hex, countWrites]
  · intro hsf
    cases hcmp : compareSaysEqual (if fs.readFails then none else fs.artifact) j
    · rw [updateCompDB_write norm uri fs lines j hscheme hnorm hparse hcmp]
      simp [hsf, countWrites, countRestarts]
    · rw [updateCompDB_skip norm uri fs lines j hscheme hnorm hparse hcmp]
      simp [countWrites, countRestarts]

/-- Witness for C8 at a concrete input: the artifact exists with different
bytes but both read and stat spuriously fail; the run completes, writes,
and restarts. -/
theorem c8_read_stat_failure_treated_as_absent_witness :
    (updateCompDB (fun _ => some ["[]"])
        ⟨4, "file", "/proj/build/compile_commands.json"⟩ ⟨some [53], true, true⟩).1.isOk = true ∧
    ((true : Bool) = true →
      (updateCompDB (fun _ => some ["[]"])
          ⟨4, "file", "/proj/build/compile_commands.json"⟩ ⟨some [53], true, true⟩).1 =
        .ok ⟨some (utf8Encode "[]"), true, true⟩ ∧
      countWrites (updateCompDB (fun _ => some ["[]"])
          ⟨4, "file", "/proj/build/compile_commands.json"⟩ ⟨some [53], true, true⟩).2 = 1) ∧
    ((true : Bool) = true →
      countRestarts (updateCompDB (fun _ => some ["[]"])
          ⟨4, "file", "/proj/build/compile_commands.json"⟩ ⟨some [53], true, true⟩).2 =
        countWrites (updateCompDB (fun _ => some ["[]"])
          ⟨4, "file", "/proj/build/compile_commands.json"⟩ ⟨some [53], true, true⟩).2) :=
  c8_read_stat_failure_treated_as_absent (fun _ => some ["[]"])
    ⟨4, "file", "/proj/build/compile_commands.json"⟩ ⟨some [53], true, true⟩
    ["[]"] (Json.arr []) rfl rfl rfl

/-- C9: whenever a reconciliation writes the published artifact, the bytes
written are exactly the UTF-8 encoding of the normalizer's output text —
its stdout lines joined by newlines — verbatim, with no re-serialization of
the parsed content. -/
theorem c9_write_is_verbatim_utf8 (norm : String → Option (List String))
    (uri : UriObj) (fs : FS) (lines : List String) (b : List Nat)
    (hscheme : uri.scheme = "file")
    (hnorm : norm (dirnameUri uri).fsPath = some lines)
    (hb : Eff.artifactWrite b ∈ (updateCompDB norm uri fs).2) :
    b = utf8Encode (String.intercalate "\n" lines) := by
  rcases hp : jsonParse (String.intercalate "\n" lines) with _ | j
  · have h : updateCompDB norm uri fs =
        (.error .syntaxError, [.normInvoke (dirnameUri uri).fsPath]) := by
      simp [updateCompDB, runCompDBInner_some norm uri lines hscheme hnorm,
        jsToString, hp]
    rw [h] at hb
    simp at hb
  · cases hcmp : compareSaysEqual (if fs.readFails then none else fs.artifact) j
    · rw [updateCompDB_write norm uri fs lines j hscheme hnorm hp hcmp] at hb
      cases hex : (if fs.statFails then false else fs.artifact.isSome) <;>
        simp [hex] at hb <;> exact hb
    · rw [updateCompDB_skip norm uri fs lines j hscheme hnorm hp hcmp] at hb
      simp at hb

/-- Witness for C9 at a concrete input: the write of the first run carries
exactly the UTF-8 bytes of the output line. -/
theorem c9_write_is_verbatim_utf8_witness :
    utf8Encode "[]" = utf8Encode (String.intercalate "\n" ["[]"]) :=
  c9_write_is_verbatim_utf8 (fun _ => some ["[]"])
    ⟨5, "file", "/proj/build/compile_commands.json"⟩ ⟨none, false, false⟩
    ["[]"] (utf8Encode "[]") rfl rfl (by decide)

/-- C10 counterexample: the artifact exists with the single byte 97
(content "a", not parseable as JSON), the normalizer returns "97".  The
comparison parses the ToString coercion of the byte array — the string
"97" — successfully, judges it equal to the new content, and SKIPS: the
artifact is not overwritten, contradicting the claim's "overwritten
unconditionally". -/
theorem c10_counterexample_single_byte_artifact :
    utf8Encode "a" = [97] ∧
    jsonParse "a" = none ∧
    updateCompDB (fun _ => some ["97"])
        ⟨1, "file", "/proj/build/compile_commands.json"⟩ ⟨some [97], false, false⟩ =
      (.ok ⟨some [97], false, false⟩, [.normInvoke "/proj/build", .artifactRead]) :=
  ⟨rfl, rfl, rfl⟩

/-- C10 amended: when the published artifact exists (reads and stats
normally) and the string the comparison actually parses — the byte array
coerced to a comma-separated list of decimal byte values, not the decoded
file text — is not parseable as JSON, the parse failure is caught by the
same handler as a read failure: the artifact is treated as having no
comparable prior content and overwritten unconditionally, while the
separate existence probe succeeds, so no restart signal is issued. -/
theorem c10_amended_unparseable_comparison_overwrites
    (norm : String → Option (List String)) (uri : UriObj) (fs : FS)
    (bytes : List Nat) (lines : List String) (j : Json)
    (hscheme : uri.scheme = "file")
    (hnorm : norm (dirnameUri uri).fsPath = some lines)
    (hparse : jsonParse (String.intercalate "\n" lines) = some j)
    (hart : fs.artifact = some bytes)
    (hrf : fs.readFails = false) (hsf : fs.statFails = false)
    (hbad : jsonParse (bytesToString bytes) = none) :
    updateCompDB norm uri fs =
      (.ok { fs with artifact := some (utf8Encode (String.intercalate "\n" lines)) },
       [.normInvoke (dirnameUri uri).fsPath, .artifactRead, .artifactStat,
        .artifactWrite (utf8Encode (String.intercalate "\n" lines))]) := by
  have hcmp : compareSaysEqual (if fs.readFails then none else fs.artifact) j = false := by
    simp [hrf, hart, compareSaysEqual, hbad]
  have h := updateCompDB_write norm uri fs lines j hscheme hnorm hparse hcmp
  rw [h]
  simp [hsf, hart]

/-- Witness for the amended C10 at a concrete input: artifact bytes 91, 93
coerce to "91,93", which does not parse; the run overwrites without a
restart. -/
theorem c10_amended_unparseable_comparison_overwrites_witness :
    updateCompDB (fun _ => some ["[1]"])
        ⟨6, "file", "/proj/build/compile_commands.json"⟩ ⟨some [91, 93], false, false⟩ =
      (.ok ⟨some (utf8Encode "[1]"), false, false⟩,
       [.normInvoke "/proj/build", .artifactRead, .artifactStat,
        .artifactWrite (utf8Encode "[1]")]) :=
  c10_amended_unparseable_comparison_overwrites (fun _ => some ["[1]"])
    ⟨6, "file", "/proj/build/compile_commands.json"⟩ ⟨some [91, 93], false, false⟩
    [91, 93] ["[1]"] (Json.arr [Json.num 1]) rfl rfl rfl rfl rfl rfl rfl

end CompDB
